import Mathlib

/-!
Shallow embedding of the mcp-servers repository (gh-mcp and slack-mcp
servers): branch-name handling of `GitHubClient`, webhook resolution and
payload assembly of `SlackWebhookClient`, the local git adapter
(`gitLocal.ts`), the tool handlers of the gh server, and the zod argument
schemas. Strings from the source are modeled as Lean `String`s; where
general theorems over all branch names are needed, branch names are
modeled as `List Char` (the character data of the JavaScript string).
-/

/-- Character data of the string "refs/heads/" used by the GitHub client
when normalizing and re-qualifying branch names. -/
def refsHeadsChars : List Char := "refs/heads/".data

/-- Character data of the string "refs/". -/
def refsChars : List Char := "refs/".data

/-- Character data of the string "refs/heads/refs/". -/
def refsHeadsRefsChars : List Char := "refs/heads/refs/".data

/-- Boolean test that `p` is a leading segment of `l`; models
JavaScript `l.startsWith(p)` on the character data. -/
def startsWithChars : List Char → List Char → Bool
  | [], _ => true
  | _ :: _, [] => false
  | a :: as, b :: bs => a == b && startsWithChars as bs

/-- Models `branch.replace(/^refs\/heads\//, "")` from
`GitHubClient.updateBranch` / `deleteBranch`: the anchored regex strips one
leading "refs/heads/" (11 characters) when present. -/
def normalizeBranch (b : List Char) : List Char :=
  if startsWithChars refsHeadsChars b then b.drop 11 else b

/-- Models the ref construction in `GitHubClient.createBranch`:
`branch.startsWith("refs/") ? branch : "refs/heads/" + branch`. -/
def requalifyBranch (b : List Char) : List Char :=
  if startsWithChars refsChars b then b else refsHeadsChars ++ b

theorem startsWithChars_iff (p l : List Char) :
    startsWithChars p l = true ↔ p <+: l := by
  induction p generalizing l with
  | nil => simp [startsWithChars]
  | cons a as ih =>
    cases l with
    | nil => simp [startsWithChars]
    | cons b bs =>
      simp [startsWithChars, ih, List.cons_prefix_cons]

/-- JSON values as delivered to and produced by the servers. Numbers are
modeled as integers: every numeric field of the embedded schemas is
validated as an integer. -/
inductive Json where
  | null
  | bool (b : Bool)
  | num (n : Int)
  | str (s : String)
  | arr (elems : List Json)
  | obj (fields : List (String × Json))

/-- JavaScript truthiness of an optional string: `undefined` and the empty
string are falsy, every other string is truthy. -/
def present : Option String → Bool
  | none => false
  | some s => !(s == "")

/-- The `SlackServerConfig` record of `config.ts`; the webhook map is an
association list of name/URL pairs. -/
structure SlackServerConfig where
  defaultWebhookUrl : Option String
  webhookMap : List (String × String)
  username : Option String
  iconEmoji : Option String

/-- The `PostMessageOptions` interface of `slackClient.ts`. -/
structure PostMessageOptions where
  text : Option String
  blocks : Option (List Json)
  attachments : Option (List Json)
  webhookName : Option String
  webhookUrl : Option String
  username : Option String
  iconEmoji : Option String

/-- The two throw sites of `SlackWebhookClient.resolveWebhookUrl`. The
spec's error taxonomy labels the first `NotFound` and the second
`Configuration`. -/
inductive SlackResolveError where
  | unknownWebhookName (name : String)
  | noWebhookConfigured
deriving DecidableEq

/-- The exact message carried by each `resolveWebhookUrl` throw site. -/
def slackErrorMessage : SlackResolveError → String
  | .unknownWebhookName n =>
      "Unknown webhook name '" ++ n ++ "'. Define it in SLACK_WEBHOOK_MAP."
  | .noWebhookConfigured =>
      "No Slack webhook configured. Provide webhookUrl, webhookName, or SLACK_WEBHOOK_URL."

/-- `SlackWebhookClient.resolveWebhookUrl`: per-call URL if truthy, else
named lookup (throwing when the looked-up value is falsy), else the
configured default URL, else a configuration error. -/
def resolveWebhookUrl (config : SlackServerConfig)
    (options : PostMessageOptions) : Except SlackResolveError String :=
  if present options.webhookUrl then .ok (options.webhookUrl.getD "")
  else if present options.webhookName then
    let name := options.webhookName.getD ""
    let mapped := List.lookup name config.webhookMap
    if present mapped then .ok (mapped.getD "")
    else .error (.unknownWebhookName name)
  else if present config.defaultWebhookUrl then
    .ok (config.defaultWebhookUrl.getD "")
  else .error .noWebhookConfigured

/-- First truthy value wins; models `a || b` on optional strings as used in
`SlackWebhookClient.buildPayload`. -/
def jsOr (a b : Option String) : Option String :=
  if present a then a else b

/-- JavaScript `String.prototype.trim`: removes leading and trailing
whitespace; modeled structurally on the character data so that it reduces
in the kernel. -/
def jsTrim (s : String) : String :=
  ⟨((s.data.dropWhile Char.isWhitespace).reverse.dropWhile
      Char.isWhitespace).reverse⟩

/-- The `text` entry of `buildPayload`: included iff `options.text` is
truthy. -/
def textPart (options : PostMessageOptions) : List (String × Json) :=
  match options.text with
  | some t => if t = "" then [] else [("text", Json.str t)]
  | none => []

/-- The `blocks` entry of `buildPayload`: included iff supplied (a JS array
is truthy even when empty). -/
def blocksPart (options : PostMessageOptions) : List (String × Json) :=
  match options.blocks with
  | some bs => [("blocks", Json.arr bs)]
  | none => []

/-- The `attachments` entry of `buildPayload`: included iff supplied. -/
def attachmentsPart (options : PostMessageOptions) : List (String × Json) :=
  match options.attachments with
  | some xs => [("attachments", Json.arr xs)]
  | none => []

/-- The `username` entry of `buildPayload`:
`options.username?.trim() || config.username`, included iff truthy. -/
def usernamePart (config : SlackServerConfig)
    (options : PostMessageOptions) : List (String × Json) :=
  match jsOr (options.username.map jsTrim) config.username with
  | some u => if u = "" then [] else [("username", Json.str u)]
  | none => []

/-- The `icon_emoji` entry of `buildPayload`:
`options.iconEmoji?.trim() || config.iconEmoji`, included iff truthy. -/
def iconEmojiPart (config : SlackServerConfig)
    (options : PostMessageOptions) : List (String × Json) :=
  match jsOr (options.iconEmoji.map jsTrim) config.iconEmoji with
  | some i => if i = "" then [] else [("icon_emoji", Json.str i)]
  | none => []

/-- `SlackWebhookClient.buildPayload`: the JSON object entries in the order
the source inserts them; a field that is not inserted is entirely absent
from the object. -/
def buildPayload (config : SlackServerConfig)
    (options : PostMessageOptions) : List (String × Json) :=
  textPart options ++ blocksPart options ++ attachmentsPart options ++
    usernamePart config options ++ iconEmojiPart config options

theorem startsWithChars_append_drop (p l : List Char)
    (h : startsWithChars p l = true) : l = p ++ l.drop p.length := by
  obtain ⟨t, rfl⟩ := (startsWithChars_iff p l).mp h
  rw [List.drop_left]

theorem length_refsHeadsChars : refsHeadsChars.length = 11 := by decide

theorem refsHeadsRefs_decomp :
    refsHeadsRefsChars = refsHeadsChars ++ refsChars := by decide

/-- C4 (counterexample): the round-trip law fails on the branch name
`refs/heads/refs/x`: normalizing strips the leading `refs/heads/`, leaving
`refs/x`, which re-qualification leaves alone because it already starts
with `refs/`; re-qualifying the original name directly leaves it as
`refs/heads/refs/x`. -/
theorem branch_roundtrip_cex :
    requalifyBranch (normalizeBranch "refs/heads/refs/x".data) ≠
      requalifyBranch "refs/heads/refs/x".data := by decide

/-- C4 (amended): re-qualify(normalize(b)) = re-qualify(b) holds exactly
for branch names b that do not begin with `refs/heads/refs/`; in
particular both examples named by the claim round-trip as stated
(`refs/heads/feature/x` and `feature/x` both yield `refs/heads/feature/x`). -/
theorem branch_normalize_requalify_roundtrip :
    (∀ b : List Char,
      requalifyBranch (normalizeBranch b) = requalifyBranch b ↔
        startsWithChars refsHeadsRefsChars b = false) ∧
    requalifyBranch (normalizeBranch "refs/heads/feature/x".data) =
      "refs/heads/feature/x".data ∧
    requalifyBranch (normalizeBranch "feature/x".data) =
      "refs/heads/feature/x".data := by
  refine ⟨?_, by decide, by decide⟩
  intro b
  by_cases h : startsWithChars refsHeadsChars b = true
  · have hb : b = refsHeadsChars ++ b.drop 11 := by
      have hd := startsWithChars_append_drop refsHeadsChars b h
      rwa [length_refsHeadsChars] at hd
    have hnorm : normalizeBranch b = b.drop 11 := by
      simp [normalizeBranch, h]
    have hreq_b : requalifyBranch b = b := by
      have hpb : startsWithChars refsChars b = true := by
        rw [startsWithChars_iff]
        refine List.IsPrefix.trans ?_ ⟨b.drop 11, hb.symm⟩
        exact (startsWithChars_iff refsChars refsHeadsChars).mp (by decide)
      simp [requalifyBranch, hpb]
    by_cases hr : startsWithChars refsChars (b.drop 11) = true
    · have hlen : b.length = 11 + (b.drop 11).length := by
        conv_lhs => rw [hb]
        simp [length_refsHeadsChars]
      refine iff_of_false ?_ ?_
      · rw [hnorm, hreq_b]
        simp only [requalifyBranch, hr, if_true]
        intro heq
        have := congrArg List.length heq
        omega
      · have hrhs : startsWithChars refsHeadsRefsChars b = true := by
          rw [startsWithChars_iff]
          obtain ⟨t, ht⟩ := (startsWithChars_iff refsChars (b.drop 11)).mp hr
          refine ⟨t, ?_⟩
          rw [refsHeadsRefs_decomp, List.append_assoc, ht]
          exact hb.symm
        simp [hrhs]
    · have hlhs : requalifyBranch (normalizeBranch b) = requalifyBranch b := by
        rw [hnorm, hreq_b]
        simp only [requalifyBranch, hr, if_false, Bool.false_eq_true]
        exact hb.symm
      refine iff_of_true hlhs ?_
      by_contra hc
      have hc' : startsWithChars refsHeadsRefsChars b = true := by
        revert hc
        cases startsWithChars refsHeadsRefsChars b <;> simp
      obtain ⟨t, ht⟩ := (startsWithChars_iff refsHeadsRefsChars b).mp hc'
      rw [refsHeadsRefs_decomp, List.append_assoc] at ht
      have hrest : refsChars ++ t = b.drop 11 :=
        List.append_cancel_left (by rw [ht, ← hb])
      have : startsWithChars refsChars (b.drop 11) = true := by
        rw [startsWithChars_iff]
        exact ⟨t, hrest⟩
      simp [this] at hr
  · have h' : startsWithChars refsHeadsChars b = false := by
      revert h
      cases startsWithChars refsHeadsChars b <;> simp
    have hnorm : normalizeBranch b = b := by
      simp [normalizeBranch, h']
    refine iff_of_true (by rw [hnorm]) ?_
    by_contra hc
    have hc' : startsWithChars refsHeadsRefsChars b = true := by
      revert hc
      cases startsWithChars refsHeadsRefsChars b <;> simp
    have hpfx : refsHeadsChars <+: b := by
      refine List.IsPrefix.trans ?_ ((startsWithChars_iff _ _).mp hc')
      exact (startsWithChars_iff refsHeadsChars refsHeadsRefsChars).mp (by decide)
    have : startsWithChars refsHeadsChars b = true :=
      (startsWithChars_iff _ _).mpr hpfx
    simp [this] at h'

theorem lookupAppend (k : String) (l₁ l₂ : List (String × Json)) :
    List.lookup k (l₁ ++ l₂) = (List.lookup k l₁).or (List.lookup k l₂) := by
  induction l₁ with
  | nil => simp [List.lookup]
  | cons kv t ih =>
    obtain ⟨a, v⟩ := kv
    cases h : k == a <;> simp [List.lookup, h, ih]

theorem textPart_lookup_ne (options : PostMessageOptions) (k : String)
    (h : (k == "text") = false) :
    List.lookup k (textPart options) = none := by
  unfold textPart
  cases options.text with
  | none => rfl
  | some t =>
    by_cases ht : t = ""
    · simp [ht]
    · simp [ht, List.lookup, h]

theorem blocksPart_lookup_ne (options : PostMessageOptions) (k : String)
    (h : (k == "blocks") = false) :
    List.lookup k (blocksPart options) = none := by
  unfold blocksPart
  cases options.blocks with
  | none => rfl
  | some bs => simp [List.lookup, h]

theorem attachmentsPart_lookup_ne (options : PostMessageOptions) (k : String)
    (h : (k == "attachments") = false) :
    List.lookup k (attachmentsPart options) = none := by
  unfold attachmentsPart
  cases options.attachments with
  | none => rfl
  | some xs => simp [List.lookup, h]

theorem usernamePart_lookup_ne (config : SlackServerConfig)
    (options : PostMessageOptions) (k : String)
    (h : (k == "username") = false) :
    List.lookup k (usernamePart config options) = none := by
  unfold usernamePart
  cases jsOr (options.username.map jsTrim) config.username with
  | none => rfl
  | some u =>
    by_cases hu : u = ""
    · simp [hu]
    · simp [hu, List.lookup, h]

theorem iconEmojiPart_lookup_ne (config : SlackServerConfig)
    (options : PostMessageOptions) (k : String)
    (h : (k == "icon_emoji") = false) :
    List.lookup k (iconEmojiPart config options) = none := by
  unfold iconEmojiPart
  cases jsOr (options.iconEmoji.map jsTrim) config.iconEmoji with
  | none => rfl
  | some u =>
    by_cases hu : u = ""
    · simp [hu]
    · simp [hu, List.lookup, h]

theorem buildPayload_lookup_text (config : SlackServerConfig)
    (options : PostMessageOptions) :
    List.lookup "text" (buildPayload config options) =
      List.lookup "text" (textPart options) := by
  simp [buildPayload, lookupAppend, Option.or_none, Option.none_or,
    blocksPart_lookup_ne options "text" (by decide),
    attachmentsPart_lookup_ne options "text" (by decide),
    usernamePart_lookup_ne config options "text" (by decide),
    iconEmojiPart_lookup_ne config options "text" (by decide)]

theorem buildPayload_lookup_blocks (config : SlackServerConfig)
    (options : PostMessageOptions) :
    List.lookup "blocks" (buildPayload config options) =
      List.lookup "blocks" (blocksPart options) := by
  simp [buildPayload, lookupAppend, Option.or_none, Option.none_or,
    textPart_lookup_ne options "blocks" (by decide),
    attachmentsPart_lookup_ne options "blocks" (by decide),
    usernamePart_lookup_ne config options "blocks" (by decide),
    iconEmojiPart_lookup_ne config options "blocks" (by decide)]

theorem buildPayload_lookup_attachments (config : SlackServerConfig)
    (options : PostMessageOptions) :
    List.lookup "attachments" (buildPayload config options) =
      List.lookup "attachments" (attachmentsPart options) := by
  simp [buildPayload, lookupAppend, Option.or_none, Option.none_or,
    textPart_lookup_ne options "attachments" (by decide),
    blocksPart_lookup_ne options "attachments" (by decide),
    usernamePart_lookup_ne config options "attachments" (by decide),
    iconEmojiPart_lookup_ne config options "attachments" (by decide)]

theorem buildPayload_lookup_username (config : SlackServerConfig)
    (options : PostMessageOptions) :
    List.lookup "username" (buildPayload config options) =
      List.lookup "username" (usernamePart config options) := by
  simp [buildPayload, lookupAppend, Option.or_none, Option.none_or,
    textPart_lookup_ne options "username" (by decide),
    blocksPart_lookup_ne options "username" (by decide),
    attachmentsPart_lookup_ne options "username" (by decide),
    iconEmojiPart_lookup_ne config options "username" (by decide)]

theorem buildPayload_lookup_icon (config : SlackServerConfig)
    (options : PostMessageOptions) :
    List.lookup "icon_emoji" (buildPayload config options) =
      List.lookup "icon_emoji" (iconEmojiPart config options) := by
  simp [buildPayload, lookupAppend, Option.or_none, Option.none_or,
    textPart_lookup_ne options "icon_emoji" (by decide),
    blocksPart_lookup_ne options "icon_emoji" (by decide),
    attachmentsPart_lookup_ne options "icon_emoji" (by decide),
    usernamePart_lookup_ne config options "icon_emoji" (by decide)]

/-- C2: webhook URL resolution is a strict first-match-wins chain. A truthy
per-call URL is used unconditionally; otherwise a truthy per-call name is
looked up in the configured map, and an unknown name fails with the
NotFound-class error (`unknownWebhookName`) for every configuration —
the conjunct holds for arbitrary `config`, so a configured default URL
never rescues an unknown name; otherwise a truthy configured default URL
is used; otherwise the Configuration-class error (`noWebhookConfigured`)
is raised. -/
theorem resolveWebhookUrl_precedence (config : SlackServerConfig)
    (options : PostMessageOptions) :
    (∀ u, options.webhookUrl = some u → u ≠ "" →
      resolveWebhookUrl config options = .ok u) ∧
    (present options.webhookUrl = false →
      ∀ n, options.webhookName = some n → n ≠ "" →
        ((∀ v, List.lookup n config.webhookMap = some v → v ≠ "" →
            resolveWebhookUrl config options = .ok v) ∧
         (List.lookup n config.webhookMap = none →
            resolveWebhookUrl config options =
              .error (.unknownWebhookName n)))) ∧
    (present options.webhookUrl = false →
      present options.webhookName = false →
        ((∀ d, config.defaultWebhookUrl = some d → d ≠ "" →
            resolveWebhookUrl config options = .ok d) ∧
         (present config.defaultWebhookUrl = false →
            resolveWebhookUrl config options =
              .error .noWebhookConfigured))) := by
  refine ⟨?_, ?_, ?_⟩
  · intro u hu hne
    have hp : present (some u) = true := by simp [present, hne]
    simp [resolveWebhookUrl, hu, hp]
  · intro hfu n hn hne
    have hpn : present (some n) = true := by simp [present, hne]
    constructor
    · intro v hv hvne
      have hpm : present (some v) = true := by simp [present, hvne]
      simp [resolveWebhookUrl, hfu, hn, hpn, hv, hpm]
    · intro hnone
      have hpm : present (none : Option String) = false := rfl
      simp [resolveWebhookUrl, hfu, hn, hpn, hnone, hpm]
  · intro hfu hfn
    constructor
    · intro d hd hdne
      have hpd : present (some d) = true := by simp [present, hdne]
      simp [resolveWebhookUrl, hfu, hfn, hd, hpd]
    · intro hpd
      simp [resolveWebhookUrl, hfu, hfn, hpd]

/-- C2 (witness): concrete instances of the precedence chain. With only a
map configured, the known name `alerts` resolves to its URL; an unknown
name `nope` fails with the NotFound-class error even though a default URL
is configured; with nothing supplied and nothing configured the
Configuration-class error is raised. -/
theorem resolveWebhookUrl_precedence_witness :
    resolveWebhookUrl ⟨none, [("alerts", "https://hooks/a")], none, none⟩
      ⟨none, none, none, some "alerts", none, none, none⟩ =
        .ok "https://hooks/a" ∧
    resolveWebhookUrl ⟨some "https://hooks/default", [], none, none⟩
      ⟨none, none, none, some "nope", none, none, none⟩ =
        .error (.unknownWebhookName "nope") ∧
    resolveWebhookUrl ⟨none, [], none, none⟩
      ⟨none, none, none, none, none, none, none⟩ =
        .error .noWebhookConfigured := by
  refine ⟨?_, ?_, ?_⟩
  · exact (((resolveWebhookUrl_precedence
      ⟨none, [("alerts", "https://hooks/a")], none, none⟩
      ⟨none, none, none, some "alerts", none, none, none⟩).2.1 rfl
        "alerts" rfl (by decide)).1 "https://hooks/a" (by decide) (by decide))
  · exact (((resolveWebhookUrl_precedence
      ⟨some "https://hooks/default", [], none, none⟩
      ⟨none, none, none, some "nope", none, none, none⟩).2.1 rfl
        "nope" rfl (by decide)).2 (by decide))
  · exact (((resolveWebhookUrl_precedence
      ⟨none, [], none, none⟩
      ⟨none, none, none, none, none, none, none⟩).2.2 rfl rfl).2 rfl)

/-- C10: a per-call webhookUrl or webhookName supplied as the empty string
resolves exactly as if the field were absent: the chain falls through to
the next alternative in both cases. -/
theorem resolveWebhookUrl_empty_as_absent (config : SlackServerConfig)
    (options : PostMessageOptions) :
    resolveWebhookUrl config { options with webhookUrl := some "" } =
      resolveWebhookUrl config { options with webhookUrl := none } ∧
    resolveWebhookUrl config { options with webhookName := some "" } =
      resolveWebhookUrl config { options with webhookName := none } := by
  constructor
  · simp [resolveWebhookUrl, present]
  · simp [resolveWebhookUrl, present]

/-- C8 (counterexample): a per-call username of one space is a non-empty
per-call override, yet with no configured default the payload omits
`username` entirely, because the source trims the override before testing
it (`options.username?.trim() || this.config.username`). The claim as
stated predicts a `username` entry for this input. -/
theorem buildPayload_username_cex :
    List.lookup "username"
      (buildPayload ⟨none, [], none, none⟩
        ⟨none, none, none, none, none, some " ", none⟩) = none ∧
    (" " : String) ≠ "" := by
  constructor
  · rfl
  · decide

/-- C8 (amended): payload assembly. `text` is included iff truthy
(supplied and non-empty); `blocks` and `attachments` are included iff
supplied; a sender name is included iff the per-call override is non-empty
after trimming, or failing that the configured default is non-empty, the
trimmed per-call override winning; the icon identifier follows the same
trimmed precedence; and no entry of the payload is ever the JSON null —
absent fields are omitted entirely. -/
theorem buildPayload_fields (config : SlackServerConfig)
    (options : PostMessageOptions) :
    (∀ t, options.text = some t → t ≠ "" →
       List.lookup "text" (buildPayload config options) =
         some (Json.str t)) ∧
    (present options.text = false →
       List.lookup "text" (buildPayload config options) = none) ∧
    List.lookup "blocks" (buildPayload config options) =
      options.blocks.map Json.arr ∧
    List.lookup "attachments" (buildPayload config options) =
      options.attachments.map Json.arr ∧
    (∀ u, options.username = some u → jsTrim u ≠ "" →
       List.lookup "username" (buildPayload config options) =
         some (Json.str (jsTrim u))) ∧
    (present (options.username.map jsTrim) = false →
       ((∀ c, config.username = some c → c ≠ "" →
           List.lookup "username" (buildPayload config options) =
             some (Json.str c)) ∧
        (present config.username = false →
           List.lookup "username" (buildPayload config options) = none))) ∧
    (∀ i, options.iconEmoji = some i → jsTrim i ≠ "" →
       List.lookup "icon_emoji" (buildPayload config options) =
         some (Json.str (jsTrim i))) ∧
    (present (options.iconEmoji.map jsTrim) = false →
       ((∀ c, config.iconEmoji = some c → c ≠ "" →
           List.lookup "icon_emoji" (buildPayload config options) =
             some (Json.str c)) ∧
        (present config.iconEmoji = false →
           List.lookup "icon_emoji" (buildPayload config options) =
             none))) ∧
    (∀ kv, kv ∈ buildPayload config options → kv.2 ≠ Json.null) := by
  refine ⟨?_, ?_, ?_, ?_, ?_, ?_, ?_, ?_, ?_⟩
  · intro t ht hne
    rw [buildPayload_lookup_text]
    simp [textPart, ht, hne, List.lookup]
  · intro hf
    rw [buildPayload_lookup_text]
    cases ht : options.text with
    | none => simp [textPart, ht]
    | some t =>
      rw [ht] at hf
      have : t = "" := by
        by_contra hc
        simp [present, hc] at hf
      simp [textPart, ht, this]
  · rw [buildPayload_lookup_blocks]
    cases hb : options.blocks with
    | none => simp [blocksPart, hb]
    | some bs => simp [blocksPart, hb, List.lookup]
  · rw [buildPayload_lookup_attachments]
    cases ha : options.attachments with
    | none => simp [attachmentsPart, ha]
    | some xs => simp [attachmentsPart, ha, List.lookup]
  · intro u hu hne
    rw [buildPayload_lookup_username]
    have hj : jsOr (options.username.map jsTrim) config.username =
        some (jsTrim u) := by
      simp [jsOr, hu, present, hne]
    simp [usernamePart, hj, hne, List.lookup]
  · intro hf
    constructor
    · intro c hc hcne
      rw [buildPayload_lookup_username]
      have hj : jsOr (options.username.map jsTrim) config.username =
          some c := by
        simp [jsOr, hf, hc]
      simp [usernamePart, hj, hcne, List.lookup]
    · intro hcf
      rw [buildPayload_lookup_username]
      have hj : jsOr (options.username.map jsTrim) config.username =
          config.username := by
        simp [jsOr, hf]
      cases hc : config.username with
      | none =>
        have hjn : jsOr (options.username.map jsTrim) config.username =
            none := by rw [hj, hc]
        simp [usernamePart, hjn]
      | some c =>
        rw [hc] at hcf
        have hce : c = "" := by
          by_contra hx
          simp [present, hx] at hcf
        have hjs : jsOr (options.username.map jsTrim) config.username =
            some "" := by rw [hj, hc, hce]
        simp [usernamePart, hjs]
  · intro i hi hne
    rw [buildPayload_lookup_icon]
    have hj : jsOr (options.iconEmoji.map jsTrim) config.iconEmoji =
        some (jsTrim i) := by
      simp [jsOr, hi, present, hne]
    simp [iconEmojiPart, hj, hne, List.lookup]
  · intro hf
    constructor
    · intro c hc hcne
      rw [buildPayload_lookup_icon]
      have hj : jsOr (options.iconEmoji.map jsTrim) config.iconEmoji =
          some c := by
        simp [jsOr, hf, hc]
      simp [iconEmojiPart, hj, hcne, List.lookup]
    · intro hcf
      rw [buildPayload_lookup_icon]
      have hj : jsOr (options.iconEmoji.map jsTrim) config.iconEmoji =
          config.iconEmoji := by
        simp [jsOr, hf]
      cases hc : config.iconEmoji with
      | none =>
        have hjn : jsOr (options.iconEmoji.map jsTrim) config.iconEmoji =
            none := by rw [hj, hc]
        simp [iconEmojiPart, hjn]
      | some c =>
        rw [hc] at hcf
        have hce : c = "" := by
          by_contra hx
          simp [present, hx] at hcf
        have hjs : jsOr (options.iconEmoji.map jsTrim) config.iconEmoji =
            some "" := by rw [hj, hc, hce]
        simp [iconEmojiPart, hjs]
  · intro kv hm
    simp only [buildPayload, List.mem_append] at hm
    rcases hm with (((h | h) | h) | h) | h
    · unfold textPart at h
      cases ht : options.text with
      | none => rw [ht] at h; simp at h
      | some t =>
        rw [ht] at h
        by_cases he : t = ""
        · simp [he] at h
        · simp [he] at h
          rw [h]
          simp
    · unfold blocksPart at h
      cases hb : options.blocks with
      | none => rw [hb] at h; simp at h
      | some bs =>
        rw [hb] at h
        simp at h
        rw [h]
        simp
    · unfold attachmentsPart at h
      cases ha : options.attachments with
      | none => rw [ha] at h; simp at h
      | some xs =>
        rw [ha] at h
        simp at h
        rw [h]
        simp
    · unfold usernamePart at h
      cases hj : jsOr (options.username.map jsTrim) config.username with
      | none => rw [hj] at h; simp at h
      | some u =>
        rw [hj] at h
        by_cases he : u = ""
        · simp [he] at h
        · simp [he] at h
          rw [h]
          simp
    · unfold iconEmojiPart at h
      cases hj : jsOr (options.iconEmoji.map jsTrim) config.iconEmoji with
      | none => rw [hj] at h; simp at h
      | some u =>
        rw [hj] at h
        by_cases he : u = ""
        · simp [he] at h
        · simp [he] at h
          rw [h]
          simp

/-- C8 (witness): concrete payloads. With text `hi`, empty blocks array
supplied, a per-call username ` name ` and a config without an icon, the
payload keeps text, keeps the empty blocks array, trims the username to
`name`, and omits the icon entirely. -/
theorem buildPayload_fields_witness :
    List.lookup "text"
      (buildPayload ⟨some "https://x/a", [], some "bot", none⟩
        ⟨some "hi", some [], none, none, none, some " name ", none⟩) =
      some (Json.str "hi") ∧
    List.lookup "username"
      (buildPayload ⟨some "https://x/a", [], some "bot", none⟩
        ⟨some "hi", some [], none, none, none, some " name ", none⟩) =
      some (Json.str (jsTrim " name ")) ∧
    List.lookup "icon_emoji"
      (buildPayload ⟨some "https://x/a", [], some "bot", none⟩
        ⟨some "hi", some [], none, none, none, some " name ", none⟩) =
      none := by
  have h := buildPayload_fields ⟨some "https://x/a", [], some "bot", none⟩
    ⟨some "hi", some [], none, none, none, some " name ", none⟩
  refine ⟨h.1 "hi" rfl (by decide), ?_, ?_⟩
  · exact h.2.2.2.2.1 " name " rfl (by decide)
  · exact (h.2.2.2.2.2.2.2.1 (by decide)).2 rfl

/-- Abstract filesystem used by the local git adapter: whether a path
exists, how `resolve` maps the caller-supplied path to an absolute one,
and the message of the error that `access` would raise for a path. -/
structure FsModel where
  pathExists : String → Bool
  resolvePath : String → String
  accessError : String → String

/-- Models `join(resolved, ".git")` from `gitLocal.ts` on POSIX paths. -/
def joinPath (a b : String) : String := a ++ "/" ++ b

/-- The construction sites of `GitLocalError` in `gitLocal.ts`, one
constructor per `throw`/`reject` site, carrying the data each site embeds
in its message or details. -/
inductive GitLocalError where
  | pathRequired
  | branchNameRequired
  | refuseDeleteMainLocal
  | pathNotExists (resolved : String) (fsMessage : String)
  | notGitRepo (resolved : String) (fsMessage : String)
  | spawnFailed (args : List String) (errMessage : String)
  | nonZeroExit (args : List String) (code : Int)
      (stderrTrimmed : Option String)
deriving DecidableEq

/-- The exact `message` string each `GitLocalError` site constructs. -/
def gitErrorMessage : GitLocalError → String
  | .pathRequired => "Repository path is required for local git commands."
  | .branchNameRequired => "Branch name is required to delete a local branch."
  | .refuseDeleteMainLocal => "Refusing to delete the main branch locally."
  | .pathNotExists r _ => "Repository path does not exist: " ++ r
  | .notGitRepo r _ =>
      "Path is not a git repository (missing .git directory): " ++ r
  | .spawnFailed args _ =>
      "Failed to execute git command: git " ++ String.intercalate " " args
  | .nonZeroExit args code _ =>
      "git " ++ String.intercalate " " args ++ " exited with code " ++
        toString code

/-- The `details` each `GitLocalError` site carries (`undefined` is
`none`; a non-zero exit stores `stderr.trim() || undefined`). -/
def gitErrorDetails : GitLocalError → Option String
  | .pathRequired => none
  | .branchNameRequired => none
  | .refuseDeleteMainLocal => none
  | .pathNotExists _ m => some m
  | .notGitRepo _ m => some m
  | .spawnFailed _ m => some m
  | .nonZeroExit _ _ d => d

/-- `ensureRepoPath` from `gitLocal.ts`: empty path, missing path and
missing `.git` marker each fail before anything else can happen. -/
def ensureRepoPath (fs : FsModel) (repoPath : String) :
    Except GitLocalError String :=
  if repoPath = "" then .error .pathRequired
  else
    let resolved := fs.resolvePath repoPath
    if fs.pathExists resolved then
      if fs.pathExists (joinPath resolved ".git") then .ok resolved
      else
        .error (.notGitRepo resolved
          (fs.accessError (joinPath resolved ".git")))
    else .error (.pathNotExists resolved (fs.accessError resolved))

/-- The one subprocess a `runGitCommand` call would spawn: its working
directory and argument vector. An `Except.error` result carries no
`SpawnCall`, so an error from the preflight means zero spawns. -/
structure SpawnCall where
  cwd : String
  args : List String
deriving DecidableEq

/-- The part of `runGitCommand` that runs before the subprocess exists:
the preflight, then the spawn request it would issue. -/
def runGitSpawn (fs : FsModel) (repoPath : String) (args : List String) :
    Except GitLocalError SpawnCall :=
  (ensureRepoPath fs repoPath).map fun cwd => ⟨cwd, args⟩

/-- Result of a successful git subprocess as `runGitCommand` resolves it. -/
structure GitCommandResult where
  stdout : String
  stderr : String
deriving DecidableEq

/-- The `close` handler of `runGitCommand`: a non-zero exit code rejects
with a `GitLocalError` embedding the exit code in the message and the
trimmed stderr (or `undefined` when it trims to empty) in the details;
exit code zero resolves with trimmed stdout and stderr. -/
def gitCloseHandler (args : List String) (code : Int)
    (stdout stderr : String) : Except GitLocalError GitCommandResult :=
  if code ≠ 0 then
    .error (.nonZeroExit args code
      (if jsTrim stderr = "" then none else some (jsTrim stderr)))
  else .ok ⟨jsTrim stdout, jsTrim stderr⟩

/-- `handleGitError` from the gh server: renders message followed by a
newline and the details whenever the details are truthy. -/
def renderGitError (e : GitLocalError) : String :=
  match gitErrorDetails e with
  | some d =>
      if d = "" then gitErrorMessage e else gitErrorMessage e ++ "\n" ++ d
  | none => gitErrorMessage e

/-- `deleteLocalBranch` from `gitLocal.ts` up to its spawn request: trims
the branch, rejects empty and `main`, then runs
`git branch -d|-D <branch>` through the preflight. -/
def deleteLocalBranchSpawn (fs : FsModel) (repoPath branch : String)
    (force : Bool) : Except GitLocalError SpawnCall :=
  let normalized := jsTrim branch
  if normalized = "" then .error .branchNameRequired
  else if normalized = "main" then .error .refuseDeleteMainLocal
  else
    runGitSpawn fs repoPath
      ["branch", if force then "-D" else "-d", normalized]

/-- The uniform tool outcome the gh server handlers produce on failure. -/
structure ToolOutcome where
  text : String
  isError : Bool
deriving DecidableEq

/-- `toolError` from the gh server. -/
def toolErrorOutcome (text : String) : ToolOutcome := ⟨text, true⟩

/-- The `delete-local-branch` tool handler up to its spawn request: the
handler itself rejects a branch trimming to `main` before calling
`deleteLocalBranch`; adapter errors are rendered through
`handleGitError`. -/
def deleteLocalBranchHandler (fs : FsModel) (repoPath branch : String)
    (force : Bool) : Except ToolOutcome SpawnCall :=
  if jsTrim branch = "main" then
    .error (toolErrorOutcome "Refusing to delete the local main branch.")
  else
    match deleteLocalBranchSpawn fs repoPath branch force with
    | .error e => .error (toolErrorOutcome (renderGitError e))
    | .ok call => .ok call

/-- Nullish coalescing `a ?? b` on optional strings: only an absent left
operand falls back (an empty string does not). -/
def jsNullish (a b : Option String) : Option String :=
  match a with
  | some x => some x
  | none => b

/-- The `GitHubServerConfig` record of the gh server `config.ts`. -/
structure GitHubServerConfig where
  token : String
  userAgent : String
  defaultOwner : Option String

/-- String-level branch normalization, the `replace(/^refs\/heads\//, "")`
of the gh code paths. -/
def normalizeBranchStr (b : String) : String := ⟨normalizeBranch b.data⟩

/-- The arguments of a `client.deleteBranch` network call. An
`Except.error` outcome of the handler carries no call, so a guard failure
means zero network requests. -/
structure RemoteDeleteCall where
  owner : String
  repo : String
  branch : String
deriving DecidableEq

/-- The `delete-remote-branch` tool handler up to its network call:
resolves the owner with `args.owner ?? config.defaultOwner`, fails when
the result is falsy, strips `refs/heads/` from the branch and rejects
`main` before invoking the client. -/
def deleteRemoteBranchHandler (config : GitHubServerConfig)
    (owner : Option String) (repo branch : String) :
    Except ToolOutcome RemoteDeleteCall :=
  let ownerResolved := jsNullish owner config.defaultOwner
  if present ownerResolved then
    let normalized := normalizeBranchStr branch
    if normalized = "main" then
      .error (toolErrorOutcome "Refusing to delete the remote main branch.")
    else .ok ⟨ownerResolved.getD "", repo, normalized⟩
  else
    .error (toolErrorOutcome
      "Provide an `owner` argument or set GITHUB_DEFAULT_OWNER.")

/-- C1: both branch-delete tools reject the protected name `main` before
reaching the adapter. The local handler fails for every filesystem and
every branch trimming to `main` with the guard's exact message, producing
no `SpawnCall`; the remote handler fails for every config and every
branch normalizing to `main` (so also for `refs/heads/main`), producing
no `RemoteDeleteCall`, and when the resolved owner is truthy the failure
is the main-branch guard itself. These guard failures are the
Validation-class errors of the spec taxonomy. -/
theorem deleteBranch_main_guard :
    (∀ (fs : FsModel) (repoPath branch : String) (force : Bool),
       jsTrim branch = "main" →
         deleteLocalBranchHandler fs repoPath branch force =
           .error (toolErrorOutcome
             "Refusing to delete the local main branch.")) ∧
    (∀ (config : GitHubServerConfig) (owner : Option String)
       (repo branch : String),
       normalizeBranchStr branch = "main" →
         (deleteRemoteBranchHandler config owner repo branch).isOk =
           false ∧
         (present (jsNullish owner config.defaultOwner) = true →
           deleteRemoteBranchHandler config owner repo branch =
             .error (toolErrorOutcome
               "Refusing to delete the remote main branch."))) := by
  constructor
  · intro fs repoPath branch force h
    simp [deleteLocalBranchHandler, h]
  · intro config owner repo branch h
    constructor
    · cases hp : present (jsNullish owner config.defaultOwner) with
      | true =>
        simp [deleteRemoteBranchHandler, hp, h, Except.isOk, Except.toBool]
      | false =>
        simp [deleteRemoteBranchHandler, hp, Except.isOk, Except.toBool]
    · intro hp
      simp [deleteRemoteBranchHandler, hp, h]

/-- C1 (witness): the local tool with branch ` main ` (trimming to
`main`) fails with the local guard message for a concrete filesystem, and
the remote tool with branch `refs/heads/main` under a configured default
owner fails with the remote guard message. -/
theorem deleteBranch_main_guard_witness :
    deleteLocalBranchHandler ⟨fun _ => true, fun p => p, fun _ => ""⟩
        "/repo" " main " false =
      .error (toolErrorOutcome
        "Refusing to delete the local main branch.") ∧
    deleteRemoteBranchHandler ⟨"t", "ua", some "octo"⟩ none "r"
        "refs/heads/main" =
      .error (toolErrorOutcome
        "Refusing to delete the remote main branch.") := by
  constructor
  · exact deleteBranch_main_guard.1 ⟨fun _ => true, fun p => p, fun _ => ""⟩
      "/repo" " main " false (by decide)
  · exact (deleteBranch_main_guard.2 ⟨"t", "ua", some "octo"⟩ none "r"
      "refs/heads/main" (by decide)).2 (by decide)

/-- C6: the local adapter preflight runs before any subprocess can be
spawned: an empty repository path, a path that does not exist, and a path
without a `.git` marker each make `runGitCommand` fail with the
corresponding `GitLocalError` site, and the `Except.error` result carries
no `SpawnCall` — zero subprocesses. -/
theorem runGit_preflight (fs : FsModel) (repoPath : String)
    (args : List String) :
    (repoPath = "" →
       runGitSpawn fs repoPath args = .error .pathRequired) ∧
    (repoPath ≠ "" →
       fs.pathExists (fs.resolvePath repoPath) = false →
       runGitSpawn fs repoPath args =
         .error (.pathNotExists (fs.resolvePath repoPath)
           (fs.accessError (fs.resolvePath repoPath)))) ∧
    (repoPath ≠ "" →
       fs.pathExists (fs.resolvePath repoPath) = true →
       fs.pathExists (joinPath (fs.resolvePath repoPath) ".git") = false →
       runGitSpawn fs repoPath args =
         .error (.notGitRepo (fs.resolvePath repoPath)
           (fs.accessError (joinPath (fs.resolvePath repoPath)
             ".git")))) := by
  refine ⟨?_, ?_, ?_⟩ <;> intros <;>
    simp [runGitSpawn, ensureRepoPath, Except.map, *]

/-- C6 (witness): a filesystem where only `/repo` exists. The empty path,
the missing path `/missing`, and `/repo` (which lacks `/repo/.git`) all
fail in the preflight with the matching error site. -/
theorem runGit_preflight_witness :
    runGitSpawn ⟨fun p => p == "/repo", fun p => p, fun _ => "ENOENT"⟩
        "" ["status"] = .error .pathRequired ∧
    runGitSpawn ⟨fun p => p == "/repo", fun p => p, fun _ => "ENOENT"⟩
        "/missing" ["status"] =
      .error (.pathNotExists "/missing" "ENOENT") ∧
    runGitSpawn ⟨fun p => p == "/repo", fun p => p, fun _ => "ENOENT"⟩
        "/repo" ["status", "--short"] =
      .error (.notGitRepo "/repo" "ENOENT") := by
  refine ⟨?_, ?_, ?_⟩
  · exact (runGit_preflight ⟨fun p => p == "/repo", fun p => p,
      fun _ => "ENOENT"⟩ "" ["status"]).1 rfl
  · exact (runGit_preflight ⟨fun p => p == "/repo", fun p => p,
      fun _ => "ENOENT"⟩ "/missing" ["status"]).2.1 (by decide) (by decide)
  · exact (runGit_preflight ⟨fun p => p == "/repo", fun p => p,
      fun _ => "ENOENT"⟩ "/repo" ["status", "--short"]).2.2 (by decide)
      (by decide) (by decide)

/-- C7: a git subprocess exiting with a non-zero code rejects with a
`GitLocalError` whose message is exactly
`git <args> exited with code <code>` — embedding the exit code — and,
when the captured stderr is non-empty after trimming, whose details are
exactly the trimmed stderr; the rendered tool outcome is the message, a
newline, and that trimmed stderr verbatim. -/
theorem gitClose_nonZeroExit (args : List String) (code : Int)
    (stdout stderr : String) :
    code ≠ 0 →
    ∃ e, gitCloseHandler args code stdout stderr = .error e ∧
      gitErrorMessage e =
        "git " ++ String.intercalate " " args ++ " exited with code " ++
          toString code ∧
      (jsTrim stderr ≠ "" →
        gitErrorDetails e = some (jsTrim stderr) ∧
        renderGitError e =
          gitErrorMessage e ++ "\n" ++ jsTrim stderr) := by
  intro h
  refine ⟨.nonZeroExit args code
    (if jsTrim stderr = "" then none else some (jsTrim stderr)),
    ?_, rfl, ?_⟩
  · simp [gitCloseHandler, h]
  · intro hs
    refine ⟨by simp [gitErrorDetails, hs], ?_⟩
    simp [renderGitError, gitErrorDetails, hs]

/-- C7 (witness): `git branch -d feature` exiting 1 with stderr
` denied \n` yields the message `git branch -d feature exited with code
1`, details `denied`, and a rendered outcome containing the trimmed
stderr verbatim after a newline. -/
theorem gitClose_nonZeroExit_witness :
    ∃ e, gitCloseHandler ["branch", "-d", "feature"] 1 "" " denied \n" =
        .error e ∧
      gitErrorMessage e = "git branch -d feature exited with code 1" ∧
      gitErrorDetails e = some "denied" ∧
      renderGitError e =
        "git branch -d feature exited with code 1\ndenied" := by
  obtain ⟨e, h1, h2, h3⟩ :=
    gitClose_nonZeroExit ["branch", "-d", "feature"] 1 "" " denied \n"
      (by decide)
  have ht : jsTrim " denied \n" = "denied" := by decide
  obtain ⟨h4, h5⟩ := h3 (by rw [ht]; decide)
  refine ⟨e, h1, ?_, ?_, ?_⟩
  · rw [h2]; decide
  · rw [h4, ht]
  · rw [h5, h2, ht]; decide

/-- The `ListRepositoriesOptions` interface of `githubClient.ts`; absent
members are `none`, destructuring defaults are applied inside the call. -/
structure ListRepositoriesOptions where
  owner : Option String
  ownerType : Option String
  perPage : Option Int
  includePrivate : Option Bool

/-- The outbound request a client method shapes: its path and its query
parameters in insertion order. -/
structure HttpRequest where
  path : String
  query : List (String × String)
deriving DecidableEq

/-- `GitHubClient.listRepositories` up to its single request: defaults
`ownerType = "user"`, `perPage = 30`, `includePrivate = false`; clamps the
page size with `Math.max(1, Math.min(perPage, 100))`; appends
`visibility=all` when private repositories are included; and selects the
path by the truthiness of `owner` and the `ownerType` switch. -/
def listRepositories (options : ListRepositoriesOptions) : HttpRequest :=
  let ownerType := options.ownerType.getD "user"
  let perPage := options.perPage.getD 30
  let includePrivate := options.includePrivate.getD false
  let baseParams :=
    [("per_page", toString (max 1 (min perPage 100))), ("sort", "pushed")]
  let params :=
    if includePrivate then baseParams ++ [("visibility", "all")]
    else baseParams
  let path :=
    if present options.owner then
      if ownerType = "org" then "/orgs/" ++ options.owner.getD "" ++ "/repos"
      else "/users/" ++ options.owner.getD "" ++ "/repos"
    else "/user/repos"
  ⟨path, params⟩

/-- `GitHubClient.searchIssues` up to its single request: defaults
`perPage = 10` and clamps it into `[1, 100]` the same way. -/
def searchIssues (query : String) (perPage : Option Int) : HttpRequest :=
  ⟨"/search/issues",
    [("q", query),
     ("per_page", toString (max 1 (min (perPage.getD 10) 100)))]⟩

/-- C9: both list-style operations clamp the requested page size into
`[1, 100]` before the request is shaped — below 1 becomes 1, above 100
becomes 100, in-range values pass through — and `listRepositories`
selects `/orgs/<owner>/repos` versus `/users/<owner>/repos` by the
owner-kind switch when a truthy owner is present, falling back to the
authenticated-account path `/user/repos` when the owner is absent (or
empty, which the source treats as absent). -/
theorem listRepositories_searchIssues_shape
    (options : ListRepositoriesOptions) (p : Int) (q : String) :
    (options.perPage = some p →
      (p < 1 →
        List.lookup "per_page" (listRepositories options).query =
          some (toString (1 : Int))) ∧
      (100 < p →
        List.lookup "per_page" (listRepositories options).query =
          some (toString (100 : Int))) ∧
      (1 ≤ p → p ≤ 100 →
        List.lookup "per_page" (listRepositories options).query =
          some (toString p))) ∧
    (∀ o, options.owner = some o → o ≠ "" →
       ((options.ownerType.getD "user" = "org" →
           (listRepositories options).path = "/orgs/" ++ o ++ "/repos") ∧
        (options.ownerType.getD "user" ≠ "org" →
           (listRepositories options).path = "/users/" ++ o ++ "/repos"))) ∧
    (present options.owner = false →
       (listRepositories options).path = "/user/repos") ∧
    ((p < 1 →
        List.lookup "per_page" (searchIssues q (some p)).query =
          some (toString (1 : Int))) ∧
     (100 < p →
        List.lookup "per_page" (searchIssues q (some p)).query =
          some (toString (100 : Int))) ∧
     (1 ≤ p → p ≤ 100 →
        List.lookup "per_page" (searchIssues q (some p)).query =
          some (toString p))) := by
  refine ⟨?_, ?_, ?_, ?_⟩
  · intro hp
    refine ⟨?_, ?_, ?_⟩
    · intro hlt
      have hm : max 1 (min p 100) = 1 := by omega
      cases hip : options.includePrivate with
      | none => simp [listRepositories, hp, hip, hm, List.lookup]
      | some b =>
        cases b <;> simp [listRepositories, hp, hip, hm, List.lookup]
    · intro hgt
      have hm : max 1 (min p 100) = 100 := by omega
      cases hip : options.includePrivate with
      | none => simp [listRepositories, hp, hip, hm, List.lookup]
      | some b =>
        cases b <;> simp [listRepositories, hp, hip, hm, List.lookup]
    · intro hlo hhi
      have hm : max 1 (min p 100) = p := by omega
      cases hip : options.includePrivate with
      | none => simp [listRepositories, hp, hip, hm, List.lookup]
      | some b =>
        cases b <;> simp [listRepositories, hp, hip, hm, List.lookup]
  · intro o ho hne
    have hp' : present (some o) = true := by simp [present, hne]
    constructor
    · intro hot
      simp [listRepositories, ho, hp', hot]
    · intro hot
      simp [listRepositories, ho, hp', hot]
  · intro hf
    simp [listRepositories, hf]
  · refine ⟨?_, ?_, ?_⟩
    · intro hlt
      have hm : max 1 (min p 100) = 1 := by omega
      simp [searchIssues, hm, List.lookup]
    · intro hgt
      have hm : max 1 (min p 100) = 100 := by omega
      simp [searchIssues, hm, List.lookup]
    · intro hlo hhi
      have hm : max 1 (min p 100) = p := by omega
      simp [searchIssues, hm, List.lookup]

/-- C9 (witness): a request for 500 repositories of organization `octo`
is clamped to `per_page=100` on the `/orgs/octo/repos` path; with no
owner the path falls back to `/user/repos`; a search for page size 0 is
clamped to `per_page=1`. -/
theorem listRepositories_searchIssues_shape_witness :
    List.lookup "per_page"
      (listRepositories ⟨some "octo", some "org", some 500,
        some true⟩).query = some (toString (100 : Int)) ∧
    (listRepositories ⟨some "octo", some "org", some 500,
      some true⟩).path = "/orgs/octo/repos" ∧
    (listRepositories ⟨none, none, some 0, none⟩).path = "/user/repos" ∧
    List.lookup "per_page" (searchIssues "is:open" (some 0)).query =
      some (toString (1 : Int)) := by
  have h1 := listRepositories_searchIssues_shape
    ⟨some "octo", some "org", some 500, some true⟩ 500 "is:open"
  have h2 := listRepositories_searchIssues_shape
    ⟨none, none, some 0, none⟩ 0 "is:open"
  exact ⟨(h1.1 rfl).2.1 (by decide),
    (h1.2.1 "octo" rfl (by decide)).1 rfl,
    h2.2.2.1 rfl,
    h2.2.2.2.1 (by decide)⟩

/-- Zero-padding to two digits, as `Date.prototype.toISOString` prints
month, day, hour, minute and second fields. -/
def pad2 (n : Nat) : String :=
  if n < 10 then "0" ++ toString n else toString n

/-- Zero-padding to three digits for the milliseconds field. -/
def pad3 (n : Nat) : String :=
  if n < 10 then "00" ++ toString n
  else if n < 100 then "0" ++ toString n
  else toString n

/-- Zero-padding to four digits for the year field. -/
def pad4 (n : Nat) : String :=
  if n < 10 then "000" ++ toString n
  else if n < 100 then "00" ++ toString n
  else if n < 1000 then "0" ++ toString n
  else toString n

/-- Proleptic Gregorian date (year, month, day) from days since the Unix
epoch, by the standard civil-from-days algorithm; total on `Nat`, valid
for all dates on or after 1970-01-01. -/
def civilFromDays (z0 : Nat) : Nat × Nat × Nat :=
  let z := z0 + 719468
  let era := z / 146097
  let doe := z % 146097
  let yoe := (doe - doe / 1460 + doe / 36524 - doe / 146096) / 365
  let y := yoe + era * 400
  let doy := doe - (365 * yoe + yoe / 4 - yoe / 100)
  let mp := (5 * doy + 2) / 153
  let d := doy - (153 * mp + 2) / 5 + 1
  let m := if mp < 10 then mp + 3 else mp - 9
  (if m ≤ 2 then y + 1 else y, m, d)

/-- `new Date(ms).toISOString()` for a non-negative epoch offset in
milliseconds: `YYYY-MM-DDTHH:mm:ss.sssZ`. -/
def isoOfEpochMs (ms : Nat) : String :=
  let totalSecs := ms / 1000
  let msPart := ms % 1000
  let days := totalSecs / 86400
  let secOfDay := totalSecs % 86400
  match civilFromDays days with
  | (y, m, d) =>
    pad4 y ++ "-" ++ pad2 m ++ "-" ++ pad2 d ++ "T" ++
      pad2 (secOfDay / 3600) ++ ":" ++ pad2 (secOfDay % 3600 / 60) ++
      ":" ++ pad2 (secOfDay % 60) ++ "." ++ pad3 msPart ++ "Z"

/-- `Number.parseInt(s, 10)` restricted to the shapes a rate-limit reset
header takes: the longest leading run of decimal digits, `NaN` (`none`)
when there is none. -/
def jsParseNat (s : String) : Option Nat :=
  let ds := s.data.takeWhile Char.isDigit
  if ds = [] then none
  else some (ds.foldl (fun acc c => acc * 10 + (c.toNat - 48)) 0)

/-- A thrown JavaScript error as observable data: its class name and its
message. `GitHubClient.handleError` only ever constructs `new Error`,
whose class name is `Error`. -/
structure JsError where
  name : String
  message : String
deriving DecidableEq

/-- The message `handleError` builds before rate-limit inspection:
`GitHub API request failed with <status>`, extended with the parsed error
body's `message` field when that is truthy. -/
def githubBaseErrorMessage (status : Int) (bodyMessage : Option String) :
    String :=
  let m := "GitHub API request failed with " ++ toString status
  match bodyMessage with
  | some dm => if dm = "" then m else m ++ ": " ++ dm
  | none => m

/-- `GitHubClient.handleError`: builds the base message, and when the
`x-ratelimit-remaining` header reads `0` and a truthy
`x-ratelimit-reset` header is present, appends
`. Rate limit resets at <iso>.` where the ISO time comes from
`new Date(parseInt(reset, 10) * 1000)`. The thrown value is always a
plain `Error` (an unparseable reset would make `toISOString` throw a
`RangeError` instead). -/
def handleError (status : Int)
    (bodyMessage remaining reset : Option String) : JsError :=
  let message := githubBaseErrorMessage status bodyMessage
  match remaining, reset with
  | some rem, some r =>
    if rem = "0" then
      if r = "" then ⟨"Error", message⟩
      else
        match jsParseNat r with
        | some n =>
          ⟨"Error", message ++ ". Rate limit resets at " ++
            isoOfEpochMs (n * 1000) ++ "."⟩
        | none => ⟨"RangeError", "Invalid time value"⟩
    else ⟨"Error", message⟩
  | _, _ => ⟨"Error", message⟩

/-- C3 (counterexample): the rate-limited error is not re-classified into
a distinct kind: the value thrown for a 403 with `x-ratelimit-remaining`
`0` and a reset header has class name `Error`, identical to the class
name of a generic HTTP failure — the source has no `RateLimited` error
class (unlike `gitLocal.ts`, which does define its own `GitLocalError`
class), so the two cases differ only in message text. -/
theorem handleError_no_ratelimited_kind :
    (handleError 403 (some "API rate limit exceeded") (some "0")
      (some "1700000000")).name = "Error" ∧
    (handleError 500 none none none).name = "Error" := by
  constructor <;> rfl

/-- C3 (amended): when the rate-limit-remaining header reads `0` and the
reset header parses, the error message is augmented with the formatted
reset time — but the error remains a plain generic `Error`, the same
class as any other HTTP failure; the rate-limit condition is reflected
only in the message text, not as a distinct error kind. -/
theorem handleError_rateLimit (status : Int) (bodyMessage : Option String)
    (r : String) (n : Nat) (h : jsParseNat r = some n) :
    handleError status bodyMessage (some "0") (some r) =
      ⟨"Error", githubBaseErrorMessage status bodyMessage ++
        ". Rate limit resets at " ++ isoOfEpochMs (n * 1000) ++ "."⟩ ∧
    handleError status bodyMessage none none =
      ⟨"Error", githubBaseErrorMessage status bodyMessage⟩ := by
  have hr : r ≠ "" := by
    intro he
    rw [he] at h
    exact Option.noConfusion h
  constructor
  · simp [handleError, hr, h]
  · rfl

/-- C3 (witness): the 403 rate-limited response with reset header
`1700000000` yields the augmented message ending in the formatted
timestamp `2023-11-14T22:13:20.000Z`, while without rate-limit headers
the same status yields only the base message. -/
theorem handleError_rateLimit_witness :
    handleError 403 (some "API rate limit exceeded") (some "0")
      (some "1700000000") =
      ⟨"Error",
        "GitHub API request failed with 403: API rate limit exceeded. Rate limit resets at 2023-11-14T22:13:20.000Z."⟩ ∧
    handleError 403 (some "API rate limit exceeded") none none =
      ⟨"Error",
        "GitHub API request failed with 403: API rate limit exceeded"⟩ := by
  have h := handleError_rateLimit 403 (some "API rate limit exceeded")
    "1700000000" 1700000000 (by decide)
  refine ⟨?_, ?_⟩
  · rw [h.1]
    decide
  · rw [h.2]
    decide

/-- A zod validation issue, as the zod field parsers report them. -/
inductive ZIssue where
  | invalidType (path expected received : String)
  | tooSmall (path : String) (minimum : Int)
  | tooBig (path : String) (maximum : Int)
  | invalidEnum (path received : String)
deriving DecidableEq

/-- The type name zod reports for a received JSON value. -/
def jsonTypeName : Json → String
  | .null => "null"
  | .bool _ => "boolean"
  | .num _ => "number"
  | .str _ => "string"
  | .arr _ => "array"
  | .obj _ => "object"

/-- `z.string().optional()`: an absent field parses to `undefined`; a
string parses to itself; any other value — including an explicit `null` —
is a type error. -/
def zOptionalString (path : String) :
    Option Json → Except (List ZIssue) (Option String)
  | none => .ok none
  | some (.str s) => .ok (some s)
  | some v => .error [.invalidType path "string" (jsonTypeName v)]

/-- `z.enum(values).default(dflt)`: an absent field takes the default; a
string must be one of the enumerated values; any other value — including
`null` — is a type error. -/
def zEnumDefault (path : String) (values : List String) (dflt : String) :
    Option Json → Except (List ZIssue) String
  | none => .ok dflt
  | some (.str s) =>
      if s ∈ values then .ok s else .error [.invalidEnum path s]
  | some v => .error [.invalidType path "string" (jsonTypeName v)]

/-- `z.number().int().min(lo).max(hi).default(dflt)`: an absent field
takes the default; a number must lie in `[lo, hi]` (integrality is by the
integer JSON model); any other value — including `null` — is a type
error. -/
def zIntRangeDefault (path : String) (lo hi dflt : Int) :
    Option Json → Except (List ZIssue) Int
  | none => .ok dflt
  | some (.num n) =>
      if n < lo then .error [.tooSmall path lo]
      else if hi < n then .error [.tooBig path hi]
      else .ok n
  | some v => .error [.invalidType path "number" (jsonTypeName v)]

/-- `z.boolean().default(dflt)`: an absent field takes the default; any
non-boolean value — including `null` — is a type error. -/
def zBoolDefault (path : String) (dflt : Bool) :
    Option Json → Except (List ZIssue) Bool
  | none => .ok dflt
  | some (.bool b) => .ok b
  | some v => .error [.invalidType path "boolean" (jsonTypeName v)]

/-- zod collects the issues of every failing field rather than stopping
at the first: combine two field results, concatenating issue lists. -/
def zCollect2 {α β : Type} :
    Except (List ZIssue) α → Except (List ZIssue) β →
      Except (List ZIssue) (α × β)
  | .ok a, .ok b => .ok (a, b)
  | .error e1, .error e2 => .error (e1 ++ e2)
  | .error e1, .ok _ => .error e1
  | .ok _, .error e2 => .error e2

/-- The parsed form of the `listRepositoriesArgs` schema of the gh
server: `owner` optional, `ownerType` defaulting to `user`, `perPage` an
integer in `[1, 100]` defaulting to 20, `includePrivate` defaulting to
`false`. -/
structure ListRepositoriesArgs where
  owner : Option String
  ownerType : String
  perPage : Int
  includePrivate : Bool
deriving DecidableEq

/-- Field-wise parse of `listRepositoriesArgs` once the four members have
been looked up in the payload object. -/
def parseListRepositoriesFields (o ot pp ip : Option Json) :
    Except (List ZIssue) ListRepositoriesArgs :=
  match zCollect2
      (zCollect2 (zOptionalString "owner" o)
        (zEnumDefault "ownerType" ["user", "org"] "user" ot))
      (zCollect2 (zIntRangeDefault "perPage" 1 100 20 pp)
        (zBoolDefault "includePrivate" false ip)) with
  | .ok ((a, b), (c, d)) => .ok ⟨a, b, c, d⟩
  | .error es => .error es

/-- `listRepositoriesArgs.parse` on a JSON payload: field lookup by key
(absent key ≠ key mapped to null), then the zod field parsers. -/
def parseListRepositoriesArgs :
    Json → Except (List ZIssue) ListRepositoriesArgs
  | .obj fields =>
      parseListRepositoriesFields (List.lookup "owner" fields)
        (List.lookup "ownerType" fields) (List.lookup "perPage" fields)
        (List.lookup "includePrivate" fields)
  | v => .error [.invalidType "" "object" (jsonTypeName v)]

theorem zCollect2_ok_iff {α β : Type} (a : Except (List ZIssue) α)
    (b : Except (List ZIssue) β) (x : α) (y : β) :
    zCollect2 a b = .ok (x, y) ↔ a = .ok x ∧ b = .ok y := by
  cases a <;> cases b <;> simp [zCollect2]

theorem parseFields_ok (o ot pp ip : Option Json)
    (args : ListRepositoriesArgs)
    (he : parseListRepositoriesFields o ot pp ip = .ok args) :
    zOptionalString "owner" o = .ok args.owner ∧
    zEnumDefault "ownerType" ["user", "org"] "user" ot =
      .ok args.ownerType ∧
    zIntRangeDefault "perPage" 1 100 20 pp = .ok args.perPage ∧
    zBoolDefault "includePrivate" false ip = .ok args.includePrivate := by
  unfold parseListRepositoriesFields at he
  split at he
  case h_1 a b c d heq =>
    obtain ⟨h12, h34⟩ := (zCollect2_ok_iff _ _ _ _).mp heq
    obtain ⟨h1, h2⟩ := (zCollect2_ok_iff _ _ _ _).mp h12
    obtain ⟨h3, h4⟩ := (zCollect2_ok_iff _ _ _ _).mp h34
    cases he
    exact ⟨h1, h2, h3, h4⟩
  case h_2 es heq => exact Except.noConfusion he

/-- C5 (counterexample): an explicit `null` for the optional `owner`
field does not remain absent after defaulting — the whole payload is
rejected by validation with a type error, where the claim predicts a
successful parse with `owner` absent. -/
theorem parseListRepos_null_cex :
    parseListRepositoriesArgs (.obj [("owner", Json.null)]) =
      .error [.invalidType "owner" "string" "null"] := by rfl

/-- C5 (amended): schema defaults are applied exactly to fields whose key
is absent from the payload; a field supplied as an explicit JSON `null`
fails validation with a type error — it is neither treated as absent nor
coerced to the default; and an optional string field supplied as the
empty string is retained as the (present) empty string, not made
absent. -/
theorem parseListRepos_defaults (fields : List (String × Json))
    (args : ListRepositoriesArgs) :
    (parseListRepositoriesArgs (.obj fields) = .ok args →
       (List.lookup "owner" fields = none → args.owner = none) ∧
       (List.lookup "ownerType" fields = none →
          args.ownerType = "user") ∧
       (List.lookup "perPage" fields = none → args.perPage = 20) ∧
       (List.lookup "includePrivate" fields = none →
          args.includePrivate = false) ∧
       (∀ s, List.lookup "owner" fields = some (.str s) →
          args.owner = some s)) ∧
    (List.lookup "owner" fields = some .null →
       parseListRepositoriesArgs (.obj fields) ≠ .ok args) ∧
    (List.lookup "ownerType" fields = some .null →
       parseListRepositoriesArgs (.obj fields) ≠ .ok args) ∧
    (List.lookup "perPage" fields = some .null →
       parseListRepositoriesArgs (.obj fields) ≠ .ok args) ∧
    (List.lookup "includePrivate" fields = some .null →
       parseListRepositoriesArgs (.obj fields) ≠ .ok args) := by
  refine ⟨?_, ?_, ?_, ?_, ?_⟩
  · intro he
    have h := parseFields_ok _ _ _ _ args he
    obtain ⟨h1, h2, h3, h4⟩ := h
    refine ⟨?_, ?_, ?_, ?_, ?_⟩
    · intro hn
      rw [hn] at h1
      simp [zOptionalString] at h1
      exact h1.symm
    · intro hn
      rw [hn] at h2
      simp [zEnumDefault] at h2
      exact h2.symm
    · intro hn
      rw [hn] at h3
      simp [zIntRangeDefault] at h3
      exact h3.symm
    · intro hn
      rw [hn] at h4
      simp [zBoolDefault] at h4
      exact h4
    · intro s hs
      rw [hs] at h1
      simp [zOptionalString] at h1
      exact h1.symm
  · intro hn he
    have h := (parseFields_ok _ _ _ _ args he).1
    rw [hn] at h
    simp [zOptionalString] at h
  · intro hn he
    have h := (parseFields_ok _ _ _ _ args he).2.1
    rw [hn] at h
    simp [zEnumDefault] at h
  · intro hn he
    have h := (parseFields_ok _ _ _ _ args he).2.2.1
    rw [hn] at h
    simp [zIntRangeDefault] at h
  · intro hn he
    have h := (parseFields_ok _ _ _ _ args he).2.2.2
    rw [hn] at h
    simp [zBoolDefault] at h

/-- C5 (witness): a payload supplying only `perPage = 5` parses with all
other fields defaulted (`owner` absent, `ownerType = user`,
`includePrivate = false`), and a payload with `includePrivate: null` is
rejected rather than defaulted. -/
theorem parseListRepos_defaults_witness :
    (⟨none, "user", 5, false⟩ : ListRepositoriesArgs).owner = none ∧
    (⟨none, "user", 5, false⟩ : ListRepositoriesArgs).ownerType =
      "user" ∧
    parseListRepositoriesArgs (.obj [("includePrivate", Json.null)]) ≠
      .ok ⟨none, "user", 20, false⟩ := by
  have h := parseListRepos_defaults [("perPage", Json.num 5)]
    ⟨none, "user", 5, false⟩
  have h2 := parseListRepos_defaults [("includePrivate", Json.null)]
    ⟨none, "user", 20, false⟩
  exact ⟨(h.1 rfl).1 rfl, (h.1 rfl).2.1 rfl, h2.2.2.2.2 rfl⟩
